import Mathlib

/-!
Shallow embedding of the crater containment program (craters_children.py).

The program computes, for two catalogs of lunar craters, which child craters
lie inside which parent craters: a great-circle distance on a sphere, a
point-in-crater containment test, a first-match scan of the parent catalog,
a fold over the child catalog building a parent-to-children mapping, a
progress-percentage computation, and a correction pass that re-filters a
previously produced mapping.

Angles and distances are modelled as exact real numbers; crater identifiers
as integers; the mapping built by the matcher as a total function from parent
id to a finite set of child ids (a defaultdict of sets); the correction pass,
which can fail on a missing parent record, returns an Except value.
-/

/-- Mean radius of the Moon in kilometres (source line 12). -/
noncomputable def MOON_MEAN_RADIUS : ℝ := 1737.4

/-- Crater record with the four columns used by the matching code:
id, lon, lat, diam (source lines 65 and 79). -/
structure Crater where
  id : Int
  lon : ℝ
  lat : ℝ
  diam : ℝ

/-- Degrees-to-radians conversion, as np.deg2rad (source lines 41-44). -/
noncomputable def deg2rad (x : ℝ) : ℝ := x * (Real.pi / 180)

/-- Argument handed to arccos inside great_cirlce_distance (source lines 46-49),
with the degree inputs converted to radians first, as the source does. -/
noncomputable def arccosArgument (a_lon a_lat b_lon b_lat : ℝ) : ℝ :=
  Real.sin (deg2rad a_lat) * Real.sin (deg2rad b_lat) +
    Real.cos (deg2rad a_lat) * Real.cos (deg2rad b_lat) *
      Real.cos (deg2rad a_lon - deg2rad b_lon)

/-- Great-circle distance between two points given in degrees
(source lines 35-50, spherical law of cosines). -/
noncomputable def great_cirlce_distance (a_lon a_lat b_lon b_lat : ℝ)
    (radius : ℝ := MOON_MEAN_RADIUS) : ℝ :=
  Real.arccos (arccosArgument a_lon a_lat b_lon b_lat) * radius

/-- Containment test: the child center lies strictly closer to the parent
center than the parent radius, p_diam / 2 (source lines 53-58). -/
noncomputable def crater_in_crater (c_lon c_lat p_lon p_lat p_diam : ℝ) : Bool :=
  decide (great_cirlce_distance c_lon c_lat p_lon p_lat < p_diam / 2)

/-- First-match scan of the parent catalog: the id of the first parent whose
containment test succeeds, none otherwise (source lines 61-72). -/
noncomputable def crater_in_ncraters (c_lon c_lat : ℝ) : List Crater → Option Int
  | [] => none
  | p :: rest =>
    if crater_in_crater c_lon c_lat p.lon p.lat p.diam then some p.id
    else crater_in_ncraters c_lon c_lat rest

/-- Body of the matcher loop for one child crater (source lines 90-93).
The source guard is the Python truthiness test on parent_id, which skips
both a missing match and a parent whose integer id equals zero. -/
noncomputable def matchStep (p_df : List Crater) (overlaps : Int → Finset Int)
    (c : Crater) : Int → Finset Int :=
  match crater_in_ncraters c.lon c.lat p_df with
  | some parent_id =>
    if parent_id = 0 then overlaps
    else Function.update overlaps parent_id (insert c.id (overlaps parent_id))
  | none => overlaps

/-- The matcher: fold the per-child step over the child catalog, starting from
the empty defaultdict of sets (source lines 75-105). -/
noncomputable def ncraters_in_ncraters (c_df p_df : List Crater) : Int → Finset Int :=
  c_df.foldl (matchStep p_df) (fun _ => (∅ : Finset Int))

/-- Percent-complete value computed by the progress reporting and used as a
divisor for the rate estimate (source lines 96-98). -/
def progressPercent (c_ind total : ℕ) : ℚ := (c_ind : ℚ) / (total : ℚ) * 100

/-- Membership filter of the correction pass: the rows of the child catalog
whose id occurs in the given id list (source lines 146-148). -/
def list_to_dataframe (child_craters : List Crater) (c_list : List Int) : List Crater :=
  child_craters.filter (fun c => decide (c.id ∈ c_list))

/-- Child ids kept for one parent by the correction pass: among the catalog
rows whose id is listed, keep those whose center is within the parent radius,
non-strictly (source lines 157-164). -/
noncomputable def keptChildIds (child_craters : List Crater) (parent_row : Crater)
    (c_list : List Int) : List Int :=
  ((list_to_dataframe child_craters c_list).filter
      (fun c => decide (great_cirlce_distance c.lon c.lat parent_row.lon parent_row.lat ≤
        parent_row.diam / 2))).map (fun c => c.id)

/-- Correction of a single mapping entry (source lines 150-164): the parent
lookup must produce exactly one catalog row, else the run aborts, as the
float() coercion of the pandas selection does. -/
noncomputable def craters_in_parent (parent_craters child_craters : List Crater)
    (parent_id : Int) (c_list : List Int) : Except Unit (List Int) :=
  match parent_craters.filter (fun p => decide (p.id = parent_id)) with
  | [parent_row] => .ok (keptChildIds child_craters parent_row c_list)
  | _ => .error ()

/-- Correction of every mapping entry in order, aborting at the first failed
parent lookup (source line 166). -/
noncomputable def correct_entries (parent_craters child_craters : List Crater) :
    List (Int × List Int) → Except Unit (List (Int × List Int))
  | [] => .ok []
  | (p_id, c_list) :: rest =>
    match craters_in_parent parent_craters child_craters p_id c_list with
    | .ok kept =>
      match correct_entries parent_craters child_craters rest with
      | .ok out => .ok ((p_id, kept) :: out)
      | .error e => .error e
    | .error e => .error e

/-- The correction pass (source lines 134-167): correct every entry, then drop
the parents whose corrected child list is empty (source line 167). -/
noncomputable def correct_craters_in_craters (parent_craters child_craters : List Crater)
    (data : List (Int × List Int)) : Except Unit (List (Int × List Int)) :=
  (correct_entries parent_craters child_craters data).map
    (fun nd => nd.filter (fun e => decide (0 < e.2.length)))

/-! Basic geometric evaluation lemmas used across the development. -/

lemma arccosArgument_self (lon lat : ℝ) : arccosArgument lon lat lon lat = 1 := by
  have h := Real.sin_sq_add_cos_sq (deg2rad lat)
  simp only [arccosArgument, sub_self, Real.cos_zero, mul_one]
  nlinarith [h]

lemma great_cirlce_distance_self (lon lat radius : ℝ) :
    great_cirlce_distance lon lat lon lat radius = 0 := by
  rw [great_cirlce_distance, arccosArgument_self, Real.arccos_one, zero_mul]

lemma deg2rad_neg (x : ℝ) : deg2rad (-x) = -deg2rad x := by
  simp only [deg2rad]; ring

lemma deg2rad_add_180 (x : ℝ) : deg2rad (x + 180) = deg2rad x + Real.pi := by
  simp only [deg2rad]; ring

lemma deg2rad_zero : deg2rad 0 = 0 := by
  simp [deg2rad]

lemma deg2rad_180 : deg2rad 180 = Real.pi := by
  simp only [deg2rad]; ring

lemma arccosArgument_antipodal (lon lat : ℝ) :
    arccosArgument lon lat (lon + 180) (-lat) = -1 := by
  have h := Real.sin_sq_add_cos_sq (deg2rad lat)
  simp only [arccosArgument, deg2rad_add_180, deg2rad_neg, Real.sin_neg, Real.cos_neg]
  have hc : deg2rad lon - (deg2rad lon + Real.pi) = -Real.pi := by ring
  rw [hc, Real.cos_neg, Real.cos_pi]
  nlinarith [h]

lemma arccosArgument_meridian : arccosArgument 180 0 0 0 = -1 := by
  simp [arccosArgument, deg2rad_zero, deg2rad_180, Real.cos_pi]

lemma great_cirlce_distance_meridian (radius : ℝ) :
    great_cirlce_distance 180 0 0 0 radius = Real.pi * radius := by
  rw [great_cirlce_distance, arccosArgument_meridian, Real.arccos_neg_one]

/-- C1: crater_in_ncraters scans parents in catalog order and returns the id of
the first parent whose containment test succeeds; it returns none exactly when
no parent in the catalog contains the child. -/
theorem crater_in_ncraters_first_match (c_lon c_lat : ℝ) (p_df : List Crater) :
    (crater_in_ncraters c_lon c_lat p_df = none ↔
      ∀ p ∈ p_df, crater_in_crater c_lon c_lat p.lon p.lat p.diam = false) ∧
    (∀ pid : Int, crater_in_ncraters c_lon c_lat p_df = some pid ↔
      ∃ pre q post, p_df = pre ++ q :: post ∧ q.id = pid ∧
        crater_in_crater c_lon c_lat q.lon q.lat q.diam = true ∧
        ∀ r ∈ pre, crater_in_crater c_lon c_lat r.lon r.lat r.diam = false) := by
  induction p_df with
  | nil =>
    refine ⟨by simp [crater_in_ncraters], fun pid => ?_⟩
    simp only [crater_in_ncraters]
    constructor
    · intro hn; simp at hn
    · rintro ⟨pre, q, post, hdec, -⟩
      cases pre <;> simp at hdec
  | cons p rest ih =>
    rcases Bool.eq_false_or_eq_true (crater_in_crater c_lon c_lat p.lon p.lat p.diam)
      with h | h
    · have heq : crater_in_ncraters c_lon c_lat (p :: rest) = some p.id := by
        simp only [crater_in_ncraters, if_pos h]
      constructor
      · constructor
        · intro hn
          rw [heq] at hn
          simp at hn
        · intro hall
          have hp := hall p (List.mem_cons_self p rest)
          rw [h] at hp
          simp at hp
      · intro pid
        rw [heq]
        constructor
        · intro hpid
          injection hpid with hpid
          exact ⟨[], p, rest, by simp, hpid, h, by simp⟩
        · rintro ⟨pre, q, post, hdec, hqid, hq, hpre⟩
          cases pre with
          | nil =>
            simp only [List.nil_append] at hdec
            injection hdec with h1 h2
            rw [h1, hqid]
          | cons a pre =>
            rw [List.cons_append] at hdec
            injection hdec with h1 h2
            have ha := hpre a (List.mem_cons_self a pre)
            rw [← h1, h] at ha
            simp at ha
    · have hneg : ¬ (crater_in_crater c_lon c_lat p.lon p.lat p.diam = true) := by
        simp [h]
      have heq : crater_in_ncraters c_lon c_lat (p :: rest) =
          crater_in_ncraters c_lon c_lat rest := by
        simp only [crater_in_ncraters, if_neg hneg]
      constructor
      · rw [heq, ih.1]
        simp [List.forall_mem_cons, h]
      · intro pid
        rw [heq, ih.2 pid]
        constructor
        · rintro ⟨pre, q, post, hdec, hqid, hq, hpre⟩
          refine ⟨p :: pre, q, post, by rw [hdec, List.cons_append], hqid, hq, ?_⟩
          intro r hr
          rcases List.mem_cons.mp hr with hr | hr
          · rw [hr]; exact h
          · exact hpre r hr
        · rintro ⟨pre, q, post, hdec, hqid, hq, hpre⟩
          cases pre with
          | nil =>
            simp only [List.nil_append] at hdec
            injection hdec with h1 h2
            rw [h1] at h
            rw [h] at hq
            simp at hq
          | cons a pre =>
            rw [List.cons_append] at hdec
            injection hdec with h1 h2
            exact ⟨pre, q, post, h2, hqid, hq, fun r hr =>
              hpre r (List.mem_cons_of_mem a hr)⟩

/-- C2: the containment test succeeds exactly when the great-circle distance is
strictly below the parent radius p_diam / 2, and a child exactly at distance
p_diam / 2 is not contained. -/
theorem crater_in_crater_iff_lt_radius (c_lon c_lat p_lon p_lat p_diam : ℝ) :
    (crater_in_crater c_lon c_lat p_lon p_lat p_diam = true ↔
      great_cirlce_distance c_lon c_lat p_lon p_lat < p_diam / 2) ∧
    (great_cirlce_distance c_lon c_lat p_lon p_lat = p_diam / 2 →
      crater_in_crater c_lon c_lat p_lon p_lat p_diam = false) := by
  constructor
  · simp [crater_in_crater]
  · intro hb
    simp [crater_in_crater, hb]

/-- C2 witness: with both points identical and diameter zero, the distance
equals the radius exactly and the containment test evaluates to false. -/
theorem crater_in_crater_boundary_witness : crater_in_crater 0 0 0 0 0 = false :=
  (crater_in_crater_iff_lt_radius 0 0 0 0 0).2 (by
    rw [great_cirlce_distance_self]; norm_num)

/-- C8: the distance from a point to itself is exactly zero, and for identical
as well as antipodal points the arccos argument lies inside the closed interval
from -1 to 1, so the arccos is applied within its domain. -/
theorem great_circle_identical_antipodal_safe (lon lat radius : ℝ) :
    great_cirlce_distance lon lat lon lat radius = 0 ∧
    (-1 ≤ arccosArgument lon lat lon lat ∧ arccosArgument lon lat lon lat ≤ 1) ∧
    (-1 ≤ arccosArgument lon lat (lon + 180) (-lat) ∧
      arccosArgument lon lat (lon + 180) (-lat) ≤ 1) := by
  refine ⟨great_cirlce_distance_self lon lat radius, ?_, ?_⟩
  · rw [arccosArgument_self]; norm_num
  · rw [arccosArgument_antipodal]; norm_num

/-- C3: the matcher guard is the Python truthiness of the returned parent id, so
a containing parent whose integer id is 0 is found by the first-match scan, yet
the child is never recorded: the resulting mapping stays empty everywhere. -/
theorem matcher_drops_zero_id_parent :
    crater_in_ncraters 0 0 [⟨0, 0, 0, 20⟩] = some 0 ∧
    ncraters_in_ncraters [⟨1, 0, 0, 1⟩] [⟨0, 0, 0, 20⟩] = fun _ => (∅ : Finset Int) := by
  have hc : crater_in_crater 0 0 0 0 20 = true := by
    rw [crater_in_crater, decide_eq_true_eq, great_cirlce_distance_self]
    norm_num
  have hfind : crater_in_ncraters 0 0 [(⟨0, 0, 0, 20⟩ : Crater)] = some 0 := by
    simp [crater_in_ncraters, hc]
  refine ⟨hfind, ?_⟩
  simp [ncraters_in_ncraters, matchStep, hfind]

lemma mem_matchStep (p_df : List Crater) (acc : Int → Finset Int) (c : Crater)
    (p x : Int) :
    x ∈ matchStep p_df acc c p ↔
      x ∈ acc p ∨ (c.id = x ∧ crater_in_ncraters c.lon c.lat p_df = some p ∧ p ≠ 0) := by
  unfold matchStep
  cases hfind : crater_in_ncraters c.lon c.lat p_df with
  | none => simp
  | some pid =>
    show x ∈ (if pid = 0 then acc else
        Function.update acc pid (insert c.id (acc pid))) p ↔
      x ∈ acc p ∨ (c.id = x ∧ some pid = some p ∧ p ≠ 0)
    by_cases hz : pid = 0
    · subst hz
      rw [if_pos rfl]
      constructor
      · exact fun hx => Or.inl hx
      · rintro (hx | ⟨-, hsome, hp⟩)
        · exact hx
        · injection hsome with hsome
          exact absurd hsome.symm hp
    · rw [if_neg hz]
      by_cases hp : p = pid
      · subst hp
        rw [Function.update_same]
        simp only [Finset.mem_insert, Option.some.injEq]
        constructor
        · rintro (hx | hx)
          · exact Or.inr ⟨hx.symm, by trivial, hz⟩
          · exact Or.inl hx
        · rintro (hx | ⟨hcid, -, -⟩)
          · exact Or.inr hx
          · exact Or.inl hcid.symm
      · rw [Function.update_noteq hp]
        constructor
        · exact fun hx => Or.inl hx
        · rintro (hx | ⟨-, hsome, -⟩)
          · exact hx
          · injection hsome with hsome
            exact absurd hsome (fun hh => hp hh.symm)

lemma mem_foldl_matchStep (p_df c_df : List Crater) (acc : Int → Finset Int)
    (p x : Int) :
    (x ∈ c_df.foldl (matchStep p_df) acc p) ↔
      x ∈ acc p ∨ ∃ c ∈ c_df, c.id = x ∧
        crater_in_ncraters c.lon c.lat p_df = some p ∧ p ≠ 0 := by
  induction c_df generalizing acc with
  | nil => simp
  | cons c rest ih =>
    rw [List.foldl_cons, ih, mem_matchStep]
    constructor
    · rintro ((hx | hc) | ⟨c', hc', hrest⟩)
      · exact Or.inl hx
      · exact Or.inr ⟨c, List.mem_cons_self c rest, hc⟩
      · exact Or.inr ⟨c', List.mem_cons_of_mem c hc', hrest⟩
    · rintro (hx | ⟨c', hc', hrest⟩)
      · exact Or.inl (Or.inl hx)
      · rcases List.mem_cons.mp hc' with hh | hh
        · subst hh
          exact Or.inl (Or.inr hrest)
        · exact Or.inr ⟨c', hh, hrest⟩

lemma mem_ncraters_in_ncraters (c_df p_df : List Crater) (p x : Int) :
    x ∈ ncraters_in_ncraters c_df p_df p ↔
      ∃ c ∈ c_df, c.id = x ∧ crater_in_ncraters c.lon c.lat p_df = some p ∧ p ≠ 0 := by
  rw [ncraters_in_ncraters, mem_foldl_matchStep]
  simp

/-- C4 counterexample: with the same child identifier 7 on two catalog rows,
one inside each of two disjoint parents, the raw mapping carries id 7 in the
sets of both parent 1 and parent 2. -/
theorem duplicate_child_id_in_two_parent_sets :
    (7 : Int) ∈ ncraters_in_ncraters [⟨7, 0, 0, 1⟩, ⟨7, 180, 0, 1⟩]
        [⟨1, 0, 0, 2⟩, ⟨2, 180, 0, 2⟩] 1 ∧
    (7 : Int) ∈ ncraters_in_ncraters [⟨7, 0, 0, 1⟩, ⟨7, 180, 0, 1⟩]
        [⟨1, 0, 0, 2⟩, ⟨2, 180, 0, 2⟩] 2 ∧
    (1 : Int) ≠ 2 := by
  have hc1 : crater_in_crater 0 0 0 0 2 = true := by
    rw [crater_in_crater, decide_eq_true_eq, great_cirlce_distance_self]; norm_num
  have hc2 : crater_in_crater 180 0 0 0 2 = false := by
    rw [crater_in_crater, decide_eq_false_iff_not, great_cirlce_distance_meridian,
      MOON_MEAN_RADIUS]
    intro hlt
    nlinarith [Real.pi_gt_three]
  have hc3 : crater_in_crater 180 0 180 0 2 = true := by
    rw [crater_in_crater, decide_eq_true_eq, great_cirlce_distance_self]; norm_num
  have hfindA : crater_in_ncraters 0 0
      [(⟨1, 0, 0, 2⟩ : Crater), ⟨2, 180, 0, 2⟩] = some 1 := by
    simp [crater_in_ncraters, hc1]
  have hfindB : crater_in_ncraters 180 0
      [(⟨1, 0, 0, 2⟩ : Crater), ⟨2, 180, 0, 2⟩] = some 2 := by
    simp [crater_in_ncraters, hc2, hc3]
  refine ⟨?_, ?_, by decide⟩
  · rw [mem_ncraters_in_ncraters]
    exact ⟨⟨7, 0, 0, 1⟩, by simp, rfl, hfindA, by decide⟩
  · rw [mem_ncraters_in_ncraters]
    exact ⟨⟨7, 180, 0, 1⟩, by simp, rfl, hfindB, by decide⟩

/-- C4 amended: when the identifiers of the child catalog are pairwise
distinct, every child identifier appears in at most one parent set of the raw
mapping; per-parent collections are finite sets by construction. -/
theorem child_id_at_most_one_parent_of_nodup (c_df p_df : List Crater)
    (h : (c_df.map Crater.id).Nodup) (p1 p2 x : Int) (hne : p1 ≠ p2)
    (hx : x ∈ ncraters_in_ncraters c_df p_df p1) :
    x ∉ ncraters_in_ncraters c_df p_df p2 := by
  intro hx2
  rw [mem_ncraters_in_ncraters] at hx hx2
  obtain ⟨c, hc, hcid, hfind, -⟩ := hx
  obtain ⟨c', hc', hcid', hfind', -⟩ := hx2
  have hcc : c = c' := List.inj_on_of_nodup_map h hc hc' (by rw [hcid, hcid'])
  rw [hcc] at hfind
  rw [hfind] at hfind'
  injection hfind' with hh
  exact hne hh

/-- C4 amended witness: a one-child catalog with distinct ids, matched inside
parent 1, so id 7 cannot also appear under parent 2. -/
theorem child_id_at_most_one_parent_witness :
    (7 : Int) ∉ ncraters_in_ncraters [⟨7, 0, 0, 1⟩] [⟨1, 0, 0, 2⟩] 2 :=
  child_id_at_most_one_parent_of_nodup [⟨7, 0, 0, 1⟩] [⟨1, 0, 0, 2⟩]
    (by simp) 1 2 7 (by decide)
    (by
      rw [mem_ncraters_in_ncraters]
      refine ⟨⟨7, 0, 0, 1⟩, by simp, rfl, ?_, by decide⟩
      have hc1 : crater_in_crater 0 0 0 0 2 = true := by
        rw [crater_in_crater, decide_eq_true_eq, great_cirlce_distance_self]
        norm_num
      simp [crater_in_ncraters, hc1])

lemma mem_keptChildIds (child_craters : List Crater) (pr : Crater)
    (c_list : List Int) (x : Int) :
    x ∈ keptChildIds child_craters pr c_list ↔
      ∃ c ∈ child_craters, c.id = x ∧ c.id ∈ c_list ∧
        great_cirlce_distance c.lon c.lat pr.lon pr.lat ≤ pr.diam / 2 := by
  simp only [keptChildIds, list_to_dataframe, List.mem_map, List.mem_filter,
    decide_eq_true_eq]
  constructor
  · rintro ⟨c, ⟨⟨hc, hcl⟩, hd⟩, hid⟩
    exact ⟨c, hc, hid, hcl, hd⟩
  · rintro ⟨c, hc, hid, hcl, hd⟩
    exact ⟨c, ⟨⟨hc, hcl⟩, hd⟩, hid⟩

lemma craters_in_parent_eq_ok (P C : List Crater) (pid : Int) (cl kl : List Int) :
    craters_in_parent P C pid cl = .ok kl ↔
      ∃ pr, P.filter (fun p => decide (p.id = pid)) = [pr] ∧
        kl = keptChildIds C pr cl := by
  unfold craters_in_parent
  cases hf : P.filter (fun p => decide (p.id = pid)) with
  | nil => simp
  | cons a t =>
    cases t with
    | nil =>
      show Except.ok (keptChildIds C a cl) = Except.ok kl ↔ _
      simp only [Except.ok.injEq, List.cons.injEq, and_true]
      constructor
      · intro h
        exact ⟨a, rfl, h.symm⟩
      · rintro ⟨pr, hpr, hkl⟩
        rw [← hpr] at hkl
        exact hkl.symm
    | cons b t2 =>
      show Except.error () = Except.ok kl ↔ _
      simp

lemma correct_entries_ok_mem (P C : List Crater) (data : List (Int × List Int)) :
    ∀ nd, correct_entries P C data = .ok nd →
      ∀ e ∈ nd, ∃ cl, (e.1, cl) ∈ data ∧ craters_in_parent P C e.1 cl = .ok e.2 := by
  induction data with
  | nil =>
    intro nd h e he
    simp only [correct_entries, Except.ok.injEq] at h
    rw [← h] at he
    simp at he
  | cons entry rest ih =>
    intro nd h e he
    obtain ⟨p_id, c_list⟩ := entry
    simp only [correct_entries] at h
    cases h1 : craters_in_parent P C p_id c_list with
    | error err => rw [h1] at h; simp at h
    | ok kept =>
      rw [h1] at h
      cases h2 : correct_entries P C rest with
      | error err => rw [h2] at h; simp at h
      | ok out =>
        rw [h2] at h
        simp only [Except.ok.injEq] at h
        rw [← h] at he
        rcases List.mem_cons.mp he with hh | hh
        · subst hh
          exact ⟨c_list, List.mem_cons_self _ _, h1⟩
        · obtain ⟨cl, hcl, hok⟩ := ih out h2 e hh
          exact ⟨cl, List.mem_cons_of_mem _ hcl, hok⟩

lemma correct_entries_ok_forward (P C : List Crater) (data : List (Int × List Int)) :
    ∀ nd, correct_entries P C data = .ok nd →
      ∀ p cl, (p, cl) ∈ data →
        ∃ kl, (p, kl) ∈ nd ∧ craters_in_parent P C p cl = .ok kl := by
  induction data with
  | nil =>
    intro nd h p cl hmem
    simp at hmem
  | cons entry rest ih =>
    intro nd h p cl hmem
    obtain ⟨p_id, c_list⟩ := entry
    simp only [correct_entries] at h
    cases h1 : craters_in_parent P C p_id c_list with
    | error err => rw [h1] at h; simp at h
    | ok kept =>
      rw [h1] at h
      cases h2 : correct_entries P C rest with
      | error err => rw [h2] at h; simp at h
      | ok out =>
        rw [h2] at h
        simp only [Except.ok.injEq] at h
        rcases List.mem_cons.mp hmem with hh | hh
        · injection hh with hp hcl
          subst hp
          subst hcl
          refine ⟨kept, ?_, h1⟩
          rw [← h]
          exact List.mem_cons_self _ _
        · obtain ⟨kl, hkl, hok⟩ := ih out h2 p cl hh
          refine ⟨kl, ?_, hok⟩
          rw [← h]
          exact List.mem_cons_of_mem _ hkl

lemma correct_entries_of_fixed (P C : List Crater) (l : List (Int × List Int))
    (h : ∀ e ∈ l, craters_in_parent P C e.1 e.2 = .ok e.2) :
    correct_entries P C l = .ok l := by
  induction l with
  | nil => rfl
  | cons entry rest ih =>
    obtain ⟨p_id, c_list⟩ := entry
    have h1 : craters_in_parent P C p_id c_list = .ok c_list :=
      h (p_id, c_list) (List.mem_cons_self _ _)
    have h2 : correct_entries P C rest = .ok rest :=
      ih (fun e he => h e (List.mem_cons_of_mem _ he))
    simp only [correct_entries]
    rw [h1, h2]

lemma keptChildIds_subset (C : List Crater) (pr : Crater) (cl : List Int) :
    ∀ x ∈ keptChildIds C pr cl, x ∈ cl := by
  intro x hx
  rw [mem_keptChildIds] at hx
  obtain ⟨c, -, hid, hcl, -⟩ := hx
  rw [← hid]
  exact hcl

lemma keptChildIds_congr (C : List Crater) (pr : Crater) (L cl : List Int)
    (h : ∀ c ∈ C,
      great_cirlce_distance c.lon c.lat pr.lon pr.lat ≤ pr.diam / 2 →
      (c.id ∈ L ↔ c.id ∈ cl)) :
    keptChildIds C pr L = keptChildIds C pr cl := by
  unfold keptChildIds list_to_dataframe
  rw [List.filter_filter, List.filter_filter]
  congr 1
  apply List.filter_congr
  intro c hc
  rcases Bool.eq_false_or_eq_true
    (decide (great_cirlce_distance c.lon c.lat pr.lon pr.lat ≤ pr.diam / 2))
    with hg | hg
  · rw [hg, Bool.true_and, Bool.true_and, decide_eq_decide]
    exact h c hc (of_decide_eq_true hg)
  · rw [hg, Bool.false_and, Bool.false_and]

lemma keptChildIds_idem (C : List Crater) (pr : Crater) (cl : List Int) :
    keptChildIds C pr (keptChildIds C pr cl) = keptChildIds C pr cl := by
  apply keptChildIds_congr
  intro c hc hg
  rw [mem_keptChildIds]
  constructor
  · rintro ⟨c', -, hid', hcl', -⟩
    rw [hid'] at hcl'
    exact hcl'
  · intro hcl
    exact ⟨c, hc, rfl, hcl, hg⟩

/-- C5: when the correction pass succeeds, every surviving parent entry is
non-empty, every kept association already occurs in the input, and a listed
child with a unique catalog record is kept under a parent with a unique
catalog record exactly when the recomputed center distance is at most the
parent radius, non-strictly. -/
theorem correct_craters_spec (P C : List Crater) (data out : List (Int × List Int))
    (h : correct_craters_in_craters P C data = .ok out) :
    (∀ e ∈ out, e.2 ≠ []) ∧
    (∀ e ∈ out, ∃ cl, (e.1, cl) ∈ data ∧ ∀ x ∈ e.2, x ∈ cl) ∧
    (∀ p cl, (p, cl) ∈ data →
      ∀ pr, P.filter (fun q => decide (q.id = p)) = [pr] →
      ∀ x ∈ cl, ∀ cr, C.filter (fun c => decide (c.id = x)) = [cr] →
        (great_cirlce_distance cr.lon cr.lat pr.lon pr.lat ≤ pr.diam / 2 ↔
          ∃ kl, (p, kl) ∈ out ∧ x ∈ kl)) := by
  unfold correct_craters_in_craters at h
  cases hce : correct_entries P C data with
  | error err => rw [hce] at h; simp [Except.map] at h
  | ok nd =>
    rw [hce] at h
    simp only [Except.map, Except.ok.injEq] at h
    refine ⟨?_, ?_, ?_⟩
    · intro e he
      rw [← h] at he
      have := List.of_mem_filter he
      rw [decide_eq_true_eq] at this
      exact List.length_pos.mp this
    · intro e he
      rw [← h] at he
      obtain ⟨cl, hmem, hok⟩ :=
        correct_entries_ok_mem P C data nd hce e (List.mem_of_mem_filter he)
      obtain ⟨pr, -, hkl⟩ := (craters_in_parent_eq_ok P C e.1 cl e.2).mp hok
      refine ⟨cl, hmem, ?_⟩
      rw [hkl]
      exact keptChildIds_subset C pr cl
    · intro p cl hmem pr hpr x hx cr hcr
      have hcrC : cr ∈ C ∧ cr.id = x := by
        have : cr ∈ C.filter (fun c => decide (c.id = x)) := by
          rw [hcr]; exact List.mem_cons_self _ _
        have h2 := List.mem_filter.mp this
        rw [decide_eq_true_eq] at h2
        exact h2
      constructor
      · intro hd
        obtain ⟨kl, hklmem, hok⟩ :=
          correct_entries_ok_forward P C data nd hce p cl hmem
        obtain ⟨pr', hpr', hkl⟩ := (craters_in_parent_eq_ok P C p cl kl).mp hok
        rw [hpr] at hpr'
        injection hpr' with hpr' htl
        have hxkl : x ∈ kl := by
          rw [hkl, ← hpr', mem_keptChildIds]
          exact ⟨cr, hcrC.1, hcrC.2, by rw [hcrC.2]; exact hx, hd⟩
        refine ⟨kl, ?_, hxkl⟩
        rw [← h]
        apply List.mem_filter.mpr
        refine ⟨hklmem, ?_⟩
        rw [decide_eq_true_eq]
        have hklne : kl ≠ [] := by
          intro hemp
          rw [hemp] at hxkl
          simp at hxkl
        exact List.length_pos.mpr hklne
      · rintro ⟨kl, hklout, hxkl⟩
        rw [← h] at hklout
        obtain ⟨cl', -, hok⟩ := correct_entries_ok_mem P C data nd hce (p, kl)
          (List.mem_of_mem_filter hklout)
        obtain ⟨pr'', hpr'', hkl''⟩ := (craters_in_parent_eq_ok P C p cl' kl).mp hok
        rw [hpr] at hpr''
        injection hpr'' with hpr'' htl2
        rw [hkl'', ← hpr'', mem_keptChildIds] at hxkl
        obtain ⟨c, hcC, hcid, -, hcd⟩ := hxkl
        have : c = cr := by
          have hcin : c ∈ C.filter (fun q => decide (q.id = x)) := by
            apply List.mem_filter.mpr
            refine ⟨hcC, ?_⟩
            rw [decide_eq_true_eq]
            exact hcid
          rw [hcr] at hcin
          rcases List.mem_cons.mp hcin with hh | hh
          · exact hh
          · simp at hh
        rw [← this]
        exact hcd

/-- C6: the correction pass is idempotent: re-running it on its own successful
output returns that output unchanged. -/
theorem correct_craters_idempotent (P C : List Crater)
    (data out : List (Int × List Int))
    (h : correct_craters_in_craters P C data = .ok out) :
    correct_craters_in_craters P C out = .ok out := by
  unfold correct_craters_in_craters at h ⊢
  cases hce : correct_entries P C data with
  | error err => rw [hce] at h; simp [Except.map] at h
  | ok nd =>
    rw [hce] at h
    simp only [Except.map, Except.ok.injEq] at h
    have hfix : ∀ e ∈ out, craters_in_parent P C e.1 e.2 = .ok e.2 := by
      intro e he
      rw [← h] at he
      obtain ⟨cl, -, hok⟩ :=
        correct_entries_ok_mem P C data nd hce e (List.mem_of_mem_filter he)
      obtain ⟨pr, hpr, hkl⟩ := (craters_in_parent_eq_ok P C e.1 cl e.2).mp hok
      rw [craters_in_parent_eq_ok]
      refine ⟨pr, hpr, ?_⟩
      rw [hkl, keptChildIds_idem]
    have hne : ∀ e ∈ out, decide (0 < e.2.length) = true := by
      intro e he
      rw [← h] at he
      exact (List.mem_filter.mp he).2
    rw [correct_entries_of_fixed P C out hfix]
    simp only [Except.map, Except.ok.injEq]
    exact List.filter_eq_self.mpr hne

/-- C7: a parent id present in the input mapping but matching no parent
catalog record makes the whole correction run abort with an error. -/
theorem correct_craters_dangling_parent_error (P C : List Crater)
    (data : List (Int × List Int)) (p : Int) (cl : List Int)
    (hmem : (p, cl) ∈ data) (habs : ∀ q ∈ P, q.id ≠ p) :
    correct_craters_in_craters P C data = .error () := by
  have hfail : craters_in_parent P C p cl = .error () := by
    unfold craters_in_parent
    have hfe : P.filter (fun q => decide (q.id = p)) = [] := by
      rw [List.filter_eq_nil_iff]
      intro q hq
      simp [habs q hq]
    rw [hfe]
  have hprop : ∀ d : List (Int × List Int), (p, cl) ∈ d →
      correct_entries P C d = .error () := by
    intro d
    induction d with
    | nil => intro hd; simp at hd
    | cons entry rest ih =>
      intro hd
      obtain ⟨pid, cll⟩ := entry
      rcases List.mem_cons.mp hd with hh | hh
      · injection hh with hp hcl
        subst hp
        subst hcl
        simp only [correct_entries]
        rw [hfail]
      · simp only [correct_entries]
        cases h1 : craters_in_parent P C pid cll with
        | error err => rfl
        | ok kept =>
          show (match correct_entries P C rest with
            | .ok out => Except.ok ((pid, kept) :: out)
            | .error e => (Except.error e : Except Unit (List (Int × List Int)))) =
              Except.error ()
          rw [ih hh]
  unfold correct_craters_in_craters
  rw [hprop data hmem]
  rfl

/-- C9: whenever the progress guard of the matcher loop fires, the
percent-complete value used as a divisor is strictly positive. -/
theorem progress_percent_pos (progress : Bool) (c_ind total : ℕ)
    (hguard : progress = true ∧ c_ind % 1000 = 1) (hloop : c_ind < total) :
    0 < progressPercent c_ind total := by
  obtain ⟨-, hmod⟩ := hguard
  have hc : 0 < c_ind := by
    rcases Nat.eq_zero_or_pos c_ind with h0 | h0
    · rw [h0] at hmod; simp at hmod
    · exact h0
  have ht : 0 < total := lt_of_le_of_lt (Nat.zero_le _) hloop
  unfold progressPercent
  have hcq : (0 : ℚ) < (c_ind : ℚ) := by exact_mod_cast hc
  have htq : (0 : ℚ) < (total : ℚ) := by exact_mod_cast ht
  exact mul_pos (div_pos hcq htq) (by norm_num)

/-- C9 witness: the guard fires at index 1 of a two-element catalog and the
divisor is positive. -/
theorem progress_percent_pos_witness : 0 < progressPercent 1 2 :=
  progress_percent_pos true 1 2 ⟨rfl, rfl⟩ (by decide)

/-- C10: a child id listed in a mapping entry but matching no child catalog
record is silently dropped: the entry is still corrected successfully and the
id is absent from the kept list. -/
theorem dangling_child_silently_dropped (P C : List Crater) (p x : Int)
    (cl : List Int) (_hx : x ∈ cl) (habs : ∀ c ∈ C, c.id ≠ x)
    (pr : Crater) (hpr : P.filter (fun q => decide (q.id = p)) = [pr]) :
    craters_in_parent P C p cl = .ok (keptChildIds C pr cl) ∧
    x ∉ keptChildIds C pr cl := by
  constructor
  · rw [craters_in_parent_eq_ok]
    exact ⟨pr, hpr, rfl⟩
  · intro hxk
    rw [mem_keptChildIds] at hxk
    obtain ⟨c, hc, hcid, -, -⟩ := hxk
    exact habs c hc hcid

lemma correct_example_run :
    correct_craters_in_craters [⟨1, 0, 0, 2⟩] [⟨7, 0, 0, 1⟩] [(1, [7])] =
      .ok [(1, [7])] := by
  have hd : great_cirlce_distance (0 : ℝ) 0 0 0 ≤ 1 := by
    rw [great_cirlce_distance_self]
    norm_num
  have hk : keptChildIds [(⟨7, 0, 0, 1⟩ : Crater)] ⟨1, 0, 0, 2⟩ [7] = [7] := by
    unfold keptChildIds list_to_dataframe
    simp [List.filter_cons, hd]
  have hcp : craters_in_parent [(⟨1, 0, 0, 2⟩ : Crater)] [⟨7, 0, 0, 1⟩] 1 [7] =
      .ok [7] := by
    rw [craters_in_parent_eq_ok]
    refine ⟨⟨1, 0, 0, 2⟩, ?_, hk.symm⟩
    rfl
  unfold correct_craters_in_craters
  rw [correct_entries_of_fixed _ _ _ ?hfix]
  case hfix =>
    intro e he
    have he2 : e = ((1 : Int), [(7 : Int)]) := by
      rcases List.mem_cons.mp he with hh | hh
      · exact hh
      · simp at hh
    rw [he2]
    exact hcp
  rfl

/-- C5 witness: a concrete successful run of the correction pass whose single
surviving entry is non-empty. -/
theorem correct_craters_spec_witness : ((1 : Int), [(7 : Int)]).2 ≠ [] :=
  (correct_craters_spec [⟨1, 0, 0, 2⟩] [⟨7, 0, 0, 1⟩] [(1, [7])] [(1, [7])]
      correct_example_run).1 (1, [7]) (List.mem_cons_self _ _)

/-- C6 witness: re-running the correction pass on the output of the concrete
run returns it unchanged. -/
theorem correct_craters_idempotent_witness :
    correct_craters_in_craters [⟨1, 0, 0, 2⟩] [⟨7, 0, 0, 1⟩] [(1, [7])] =
      .ok [(1, [7])] :=
  correct_craters_idempotent [⟨1, 0, 0, 2⟩] [⟨7, 0, 0, 1⟩] [(1, [7])] [(1, [7])]
    correct_example_run

/-- C7 witness: a mapping entry for parent id 5 with an empty parent catalog
aborts the correction run. -/
theorem correct_craters_dangling_parent_witness :
    correct_craters_in_craters [] [] [(5, [])] = .error () :=
  correct_craters_dangling_parent_error [] [] [(5, [])] 5 [] (List.mem_cons_self _ _)
    (by simp)

/-- C10 witness: child id 7 is listed but has no catalog record; the entry is
corrected without error and 7 is absent from the kept list. -/
theorem dangling_child_silently_dropped_witness :
    craters_in_parent [⟨1, 0, 0, 2⟩] [] 1 [7] =
        .ok (keptChildIds [] ⟨1, 0, 0, 2⟩ [7]) ∧
    (7 : Int) ∉ keptChildIds [] ⟨1, 0, 0, 2⟩ [7] :=
  dangling_child_silently_dropped [⟨1, 0, 0, 2⟩] [] 1 7 [7] (List.mem_cons_self _ _)
    (by simp) ⟨1, 0, 0, 2⟩ rfl

/-- C1 witness: on the empty parent catalog the scan returns none. -/
theorem crater_in_ncraters_first_match_witness :
    crater_in_ncraters 0 0 ([] : List Crater) = none :=
  (crater_in_ncraters_first_match 0 0 []).1.mpr (by simp)

/-- C8 witness: the distance from the point at longitude 10 and latitude 0 to
itself is zero. -/
theorem great_circle_identical_antipodal_witness :
    great_cirlce_distance 10 0 10 0 MOON_MEAN_RADIUS = 0 :=
  (great_circle_identical_antipodal_safe 10 0 MOON_MEAN_RADIUS).1
